import Mathlib

/-!
Verification of the gateway connection-management core of the agent-manager
service: the WebSocket connection registry (`websocket/manager.go`,
`websocket/connection.go`, `websocket/stats.go`), the gateway event broadcast
service (`services` package), the credential vault (`utils` AES-GCM helpers),
the on-premise adapter health check, and the per-address sliding-window rate
limiter of the WebSocket controller.

The Go code is shallowly embedded as pure Lean functions over explicit state.
The `sync.Map` keyed by gateway ID is modelled as an association list with
`String` keys; `uuid.New()` is modelled as a fresh counter value (the only
property the code relies on is uniqueness of generated connection IDs);
wall-clock instants (`time.Now()`) are threaded as explicit `Int` parameters;
the per-connection `Transport` is modelled as a test double recording its
`Send` behaviour and every `Close(code, reason)` invocation, mirroring how the
registry is exercised with fake transports.
-/

namespace AgentManager

/-! ## Generic association-list operations (model of `sync.Map` / Go maps) -/

/-- `Load`: first entry with the given key. -/
def alookup {α : Type} (k : String) : List (String × α) → Option α
  | [] => none
  | (k', v) :: rest => if k' = k then some v else alookup k rest

/-- `Store`: replace the entry for the key, or append a new entry. -/
def astore {α : Type} (k : String) (v : α) : List (String × α) → List (String × α)
  | [] => [(k, v)]
  | (k', v') :: rest => if k' = k then (k, v) :: rest else (k', v') :: astore k v rest

/-- `Delete`: remove the entry for the key. -/
def adelete {α : Type} (k : String) : List (String × α) → List (String × α)
  | [] => []
  | (k', v') :: rest => if k' = k then rest else (k', v') :: adelete k rest

/-! ## DeliveryStats (`websocket/stats.go`) -/

/-- `DeliveryStats` of a connection.  The wall-clock `LastFailureTime` is
modelled as an optional instant set from the explicit `now` parameter. -/
structure DeliveryStats where
  totalEventsSent : Int
  failedDeliveries : Int
  lastFailureTime : Option Int
  lastFailureReason : Option String
deriving DecidableEq, Repr

def DeliveryStats.init : DeliveryStats :=
  { totalEventsSent := 0, failedDeliveries := 0,
    lastFailureTime := none, lastFailureReason := none }

/-- `IncrementTotalSent`. -/
def DeliveryStats.incrementTotalSent (s : DeliveryStats) : DeliveryStats :=
  { s with totalEventsSent := s.totalEventsSent + 1 }

/-- `IncrementFailed`: bump the failure counter and record the failure
time and reason. -/
def DeliveryStats.incrementFailed (s : DeliveryStats) (now : Int) (reason : String) :
    DeliveryStats :=
  { s with failedDeliveries := s.failedDeliveries + 1,
           lastFailureTime := some now, lastFailureReason := some reason }

/-! ## Transport double and Connection (`websocket/connection.go`) -/

/-- A `Transport` test double: `sendErr` is the fixed outcome of `Send`
(`none` = success), `closes` records every `Close(code, reason)` call made on
the underlying transport. -/
structure FakeTransport where
  sendErr : Option String
  closes : List (Int × String)
deriving DecidableEq, Repr

/-- `Connection` (`websocket/connection.go`).  `connectionID` is the
uuid modelled as a natural number. -/
structure Connection where
  gatewayID : String
  connectionID : Nat
  connectedAt : Int
  lastHeartbeat : Int
  transport : FakeTransport
  authToken : String
  deliveryStats : DeliveryStats
  closed : Bool
deriving DecidableEq, Repr

/-- `NewConnection`. -/
def NewConnection (gatewayID : String) (connectionID : Nat) (transport : FakeTransport)
    (authToken : String) (now : Int) : Connection :=
  { gatewayID := gatewayID, connectionID := connectionID,
    connectedAt := now, lastHeartbeat := now,
    transport := transport, authToken := authToken,
    deliveryStats := DeliveryStats.init, closed := false }

/-- `Connection.Send`: error result only (`Send` mutates no connection state).
Rejects with `ErrConnectionClosed` when `closed`, else returns the transport's
outcome. -/
def Connection.sendErrResult (c : Connection) : Option String :=
  if c.closed then some "connection is closed" else c.transport.sendErr

/-- `Connection.Close`: idempotent — a second close is a no-op; otherwise sets
`closed` and invokes the transport's close (recorded in `closes`). -/
def Connection.close (c : Connection) (code : Int) (reason : String) : Connection :=
  if c.closed then c
  else { c with closed := true,
                transport := { c.transport with
                               closes := c.transport.closes ++ [(code, reason)] } }

/-- `Connection.UpdateHeartbeat` with the current instant passed explicitly. -/
def Connection.updateHeartbeat (c : Connection) (now : Int) : Connection :=
  { c with lastHeartbeat := now }

/-! ## Manager (`websocket/manager.go`) -/

/-- `Manager` registry state: the `sync.Map` from gateway ID to the slice of
connections, the global counter, configuration, and the uuid source modelled
as a counter of fresh connection IDs. -/
structure Manager where
  conns : List (String × List Connection)
  connectionCount : Int
  maxConnections : Int
  heartbeatTimeout : Int
  nextConnID : Nat
deriving DecidableEq, Repr

/-- `NewManager`. -/
def NewManager (maxConnections heartbeatTimeout : Int) : Manager :=
  { conns := [], connectionCount := 0, maxConnections := maxConnections,
    heartbeatTimeout := heartbeatTimeout, nextConnID := 0 }

/-- `Manager.GetConnections`: the slice for a gateway, empty if absent. -/
def Manager.getConnections (m : Manager) (gatewayID : String) : List Connection :=
  (alookup gatewayID m.conns).getD []

/-- `Manager.GetConnectionCount`. -/
def Manager.getConnectionCount (m : Manager) : Int :=
  m.connectionCount

/-- `Manager.Register`: reject at capacity, else increment the counter, create
a fresh connection, and append it to the gateway's slice
(`LoadOrStore` + append + `Store`).  Returns the result together with the
updated registry (on the error path the registry is returned unchanged). -/
def Manager.register (m : Manager) (gatewayID : String) (transport : FakeTransport)
    (authToken : String) (now : Int) : Except String Connection × Manager :=
  if m.connectionCount ≥ m.maxConnections then
    (.error "maximum connection limit reached", m)
  else
    let m1 := { m with connectionCount := m.connectionCount + 1 }
    let conn := NewConnection gatewayID m1.nextConnID transport authToken now
    let existing := (alookup gatewayID m1.conns).getD []
    let m2 := { m1 with conns := astore gatewayID (existing ++ [conn]) m1.conns,
                        nextConnID := m1.nextConnID + 1 }
    (.ok conn, m2)

/-- `Manager.Unregister`: keep the non-matching connections (the last matching
one is `removed`), delete the gateway entry if the remainder is empty, close
the removed connection with code 1000 `"normal closure"`, and decrement the
counter.  No-op when the gateway or the connection ID is absent.  Returns the
closed removed connection alongside the new state. -/
def Manager.unregister (m : Manager) (gatewayID : String) (connectionID : Nat) :
    Manager × Option Connection :=
  match alookup gatewayID m.conns with
  | none => (m, none)
  | some conns =>
    match (conns.filter (fun c => c.connectionID == connectionID)).getLast? with
    | none => (m, none)
    | some r =>
      let updated := conns.filter (fun c => c.connectionID != connectionID)
      let conns' := if updated.isEmpty then adelete gatewayID m.conns
                    else astore gatewayID updated m.conns
      ({ m with conns := conns', connectionCount := m.connectionCount - 1 },
       some (r.close 1000 "normal closure"))

/-- One pong receipt: the registered pong handler calls `UpdateHeartbeat` on
the connection. -/
def Manager.pong (m : Manager) (gatewayID : String) (connectionID : Nat) (now : Int) :
    Manager :=
  match alookup gatewayID m.conns with
  | none => m
  | some conns =>
    let updated := conns.map (fun c =>
      if c.connectionID == connectionID then c.updateHeartbeat now else c)
    { m with conns := astore gatewayID updated m.conns }

/-- One iteration of `Manager.monitorHeartbeat`'s supervision loop for the
connection identified by `(gatewayID, connectionID)`: exit if the connection
is closed, unregister on heartbeat timeout, otherwise send a ping whose
outcome is `pingOk` and unregister on ping failure. -/
def Manager.monitorHeartbeatTick (m : Manager) (gatewayID : String) (connectionID : Nat)
    (now : Int) (pingOk : Bool) : Manager × Option Connection :=
  match alookup gatewayID m.conns with
  | none => (m, none)
  | some conns =>
    match (conns.filter (fun c => c.connectionID == connectionID)).getLast? with
    | none => (m, none)
    | some conn =>
      if conn.closed then (m, none)
      else if now - conn.lastHeartbeat > m.heartbeatTimeout then
        m.unregister conn.gatewayID conn.connectionID
      else if !pingOk then
        m.unregister conn.gatewayID conn.connectionID
      else (m, none)

/-! ## Sequential operation sequences over the registry -/

/-- One sequential registry operation: a `Register` call (with the transport
double's send behaviour and the auth token), an `Unregister` call, one
heartbeat-supervision tick, or one pong receipt. -/
inductive MOp where
  | register (gatewayID : String) (sendErr : Option String) (authToken : String) (now : Int)
  | unregister (gatewayID : String) (connectionID : Nat)
  | hbTick (gatewayID : String) (connectionID : Nat) (now : Int) (pingOk : Bool)
  | pong (gatewayID : String) (connectionID : Nat) (now : Int)
deriving DecidableEq, Repr

def Manager.applyOp (m : Manager) : MOp → Manager
  | .register gid sendErr tok now =>
      (m.register gid { sendErr := sendErr, closes := [] } tok now).2
  | .unregister gid cid => (m.unregister gid cid).1
  | .hbTick gid cid now pingOk => (m.monitorHeartbeatTick gid cid now pingOk).1
  | .pong gid cid now => m.pong gid cid now

def Manager.run (m : Manager) : List MOp → Manager
  | [] => m
  | op :: ops => (m.applyOp op).run ops

/-- Total number of connections stored across all gateway entries. -/
def sumConns (l : List (String × List Connection)) : Nat :=
  match l with
  | [] => 0
  | (_, v) :: rest => v.length + sumConns rest

/-- All connection IDs stored across all gateway entries. -/
def allConnIDs (l : List (String × List Connection)) : List Nat :=
  match l with
  | [] => []
  | (_, v) :: rest => v.map (·.connectionID) ++ allConnIDs rest

/-- The registry invariant: distinct gateway keys, no gateway maps to an
empty slice, the global counter equals the number of stored connections,
stored connection IDs are pairwise distinct and below the uuid counter. -/
structure Manager.WF (m : Manager) : Prop where
  keys_nodup : (m.conns.map Prod.fst).Nodup
  entries_nonempty : ∀ p ∈ m.conns, p.2 ≠ []
  count_eq : m.connectionCount = (sumConns m.conns : Int)
  ids_nodup : (allConnIDs m.conns).Nodup
  ids_lt : ∀ n ∈ allConnIDs m.conns, n < m.nextConnID

/-! ## Gateway event broadcast service (`services`, `gatewayEventsService`) -/

/-- `MaxEventPayloadSize`: 1 MiB. -/
def MaxEventPayloadSize : Nat := 1 * 1024 * 1024

/-- One fan-out step of `broadcastEvent` for a single connection: on `Send`
failure increment `failedDeliveries` and record the reason, on success
increment `totalEventsSent`. -/
def broadcastSendStep (now : Int) (c : Connection) : Connection :=
  match c.sendErrResult with
  | some e =>
      { c with deliveryStats := c.deliveryStats.incrementFailed now ("send error: " ++ e) }
  | none =>
      { c with deliveryStats := c.deliveryStats.incrementTotalSent }

/-- `gatewayEventsService.broadcastEvent`, with the payload represented by its
JSON-serialized size (the envelope construction and its serialization always
succeed for a payload that already serialized successfully, so they are not
an error source here).  Returns (error, updated registry, number of `Send`
calls performed).  Rejects oversized payloads before any send; an empty
connection list is success with zero sends; otherwise every connection gets
exactly one `Send` whose outcome updates that connection's stats, and the
call returns success regardless of per-send failures. -/
def broadcastEvent (m : Manager) (gatewayID : String) (payloadSize : Nat) (now : Int) :
    Option String × Manager × Nat :=
  if payloadSize > MaxEventPayloadSize then
    (some "event payload exceeds maximum size", m, 0)
  else
    let conns := m.getConnections gatewayID
    if conns.isEmpty then
      (none, m, 0)
    else
      let updated := conns.map (broadcastSendStep now)
      (none, { m with conns := astore gatewayID updated m.conns }, conns.length)

/-! ## Credential vault (`utils`, AES-256-GCM helpers) -/

/-- `KeySize`: required key size for AES-256. -/
def KeySize : Nat := 32

/-- `NonceSize`: GCM nonce size. -/
def NonceSize : Nat := 12

/-- Modelled from the spec: the `models.GatewayCredentials` record (its Go
definition is outside the shown sources) — "username/password (or equivalent
secret fields)". -/
structure GatewayCredentials where
  username : String
  password : String
deriving DecidableEq, Repr

/-- Character codes of a string (abstract bytes of its serialization). -/
def strCodes (s : String) : List Nat := s.data.map Char.toNat

/-- Rebuild a string from character codes. -/
def codesStr (l : List Nat) : String := String.mk (l.map Char.ofNat)

/-- `json.Marshal` of a credentials record, modelled as an injective
length-prefixed serialization into abstract bytes. -/
def credsMarshal (c : GatewayCredentials) : List Nat :=
  c.username.length :: (strCodes c.username ++ c.password.length :: strCodes c.password)

/-- `json.Unmarshal` into a credentials record: partial inverse of
`credsMarshal`. -/
def credsUnmarshal (l : List Nat) : Option GatewayCredentials :=
  match l with
  | [] => none
  | n :: rest =>
    if n ≤ rest.length then
      match rest.drop n with
      | [] => none
      | k :: rest2 =>
        if k = rest2.length then
          some { username := codesStr (rest.take n), password := codesStr rest2 }
        else none
    else none

/-- Idealized AEAD seal (`gcm.Seal` without the prepended destination): the
ciphertext-with-tag determines the plaintext, and the tag binds the key and
nonce.  The model is an injective pairing; its only properties used are the
standard AEAD correctness and authentication properties. -/
def gcmSeal (key nonce plaintext : List Nat) : List Nat :=
  plaintext ++ key ++ nonce

/-- Idealized AEAD open (`gcm.Open`): succeeds exactly when the trailing tag
authenticates under this key and nonce, returning the plaintext. -/
def gcmOpen (key nonce ciphertext : List Nat) : Option (List Nat) :=
  if KeySize + NonceSize ≤ ciphertext.length ∧
     ciphertext.drop (ciphertext.length - (KeySize + NonceSize)) = key ++ nonce then
    some (ciphertext.take (ciphertext.length - (KeySize + NonceSize)))
  else none

/-- Error taxonomy of the credential vault. -/
inductive CryptoErr where
  | invalidCredentials
  | invalidKeySize
  | invalidCiphertext
  | unmarshalFailure
deriving DecidableEq, Repr

/-- `EncryptCredentials`: nil check, key-size check, JSON-marshal the record,
then `gcm.Seal(nonce, nonce, plaintext, nil)` — the fresh random 12-byte
nonce is passed as an explicit parameter and is prepended to the sealed
output.  (`aes.NewCipher`/`cipher.NewGCM` cannot fail for a 32-byte key.) -/
def EncryptCredentials (creds : Option GatewayCredentials) (key : List Nat)
    (nonce : List Nat) : Except CryptoErr (List Nat) :=
  match creds with
  | none => .error .invalidCredentials
  | some c =>
    if key.length ≠ KeySize then .error .invalidKeySize
    else
      let plaintext := credsMarshal c
      .ok (nonce ++ gcmSeal key nonce plaintext)

/-- `DecryptCredentials`: key-size check, minimum-length check, split the
first 12 bytes as the nonce, authenticate-and-decrypt the remainder (any
authentication failure is the single generic invalid-ciphertext error), then
JSON-unmarshal the plaintext. -/
def DecryptCredentials (encrypted : List Nat) (key : List Nat) :
    Except CryptoErr GatewayCredentials :=
  if key.length ≠ KeySize then .error .invalidKeySize
  else if encrypted.length < NonceSize then .error .invalidCiphertext
  else
    let nonce := encrypted.take NonceSize
    let ciphertext := encrypted.drop NonceSize
    match gcmOpen key nonce ciphertext with
    | none => .error .invalidCiphertext
    | some plaintext =>
      match credsUnmarshal plaintext with
      | none => .error .unmarshalFailure
      | some c => .ok c

/-! ## On-premise adapter health check (`onpremise` adapter) -/

/-- Outcome of one HTTP GET as seen by the adapter: a transport-level failure
or a response with a status code. -/
inductive HttpOutcome where
  | transportError (msg : String)
  | response (status : Nat)
deriving DecidableEq, Repr

/-- `OnPremiseAdapter.ValidateGatewayEndpoint`: a GET to `/health`; transport
failure and a non-200 status are both reported as errors (non-nil `error`). -/
def ValidateGatewayEndpoint (o : HttpOutcome) : Option String :=
  match o with
  | .transportError msg => some ("gateway endpoint unreachable: " ++ msg)
  | .response status =>
      if status ≠ 200 then some ("gateway health check failed with status " ++ toString status)
      else none

/-- `gateway.HealthStatus` as filled in by `CheckHealth`. -/
structure HealthStatus where
  status : String
  responseTime : Int
  checkedAt : Int
  errorMessage : Option String
deriving DecidableEq, Repr

/-- `OnPremiseAdapter.CheckHealth`: validate the endpoint, capture the
wall-clock round-trip time (`elapsed`), report `ACTIVE` on success and
`ERROR` with the message otherwise; the function-level error is always nil. -/
def CheckHealth (o : HttpOutcome) (elapsed now : Int) : HealthStatus × Option String :=
  let err := ValidateGatewayEndpoint o
  let base : HealthStatus :=
    { status := "ACTIVE", responseTime := elapsed, checkedAt := now, errorMessage := none }
  let st := match err with
    | some msg => { base with status := "ERROR", errorMessage := some msg }
    | none => base
  (st, none)

/-! ## WebSocket controller: sliding-window rate limiter and connect flow
(`controllers`, `websocketGatewayController`) -/

/-- Rate limiter state: the per-address timestamp lists and the per-window
attempt budget.  Instants are `Int` seconds; the window is 60 seconds. -/
structure RateLimitState where
  rateLimitMap : List (String × List Int)
  rateLimitCount : Nat
deriving DecidableEq, Repr

/-- `websocketGatewayController.checkRateLimit`: prune timestamps at or before
`now - 60`, reject when the pruned list has reached the budget (without
storing), otherwise record the attempt's timestamp and admit. -/
def checkRateLimit (st : RateLimitState) (clientIP : String) (now : Int) :
    Bool × RateLimitState :=
  let oneMinuteAgo := now - 60
  let attempts := (alookup clientIP st.rateLimitMap).getD []
  let recentAttempts := attempts.filter (fun t => t > oneMinuteAgo)
  if recentAttempts.length ≥ st.rateLimitCount then
    (false, st)
  else
    (true, { st with rateLimitMap := astore clientIP (recentAttempts ++ [now]) st.rateLimitMap })

/-- Outcome of one `Connect` request. -/
inductive ConnectOutcome where
  | rateLimited
  | missingAPIKey
  | authFailed
  | upgradeFailed
  | registerFailed
  | connected
deriving DecidableEq, Repr

/-- `websocketGatewayController.Connect` control flow up to registration:
rate limit gate, `api-key` header check, token verification, WebSocket
upgrade, then `Manager.Register`.  `upgradeAttempted` records whether the
upgrade was ever performed. -/
structure ConnectResult where
  outcome : ConnectOutcome
  upgradeAttempted : Bool
  st : RateLimitState
deriving DecidableEq, Repr

def Connect (st : RateLimitState) (clientIP : String) (now : Int)
    (apiKeyPresent authOk upgradeOk registerOk : Bool) : ConnectResult :=
  match checkRateLimit st clientIP now with
  | (false, st') => { outcome := .rateLimited, upgradeAttempted := false, st := st' }
  | (true, st') =>
    if !apiKeyPresent then { outcome := .missingAPIKey, upgradeAttempted := false, st := st' }
    else if !authOk then { outcome := .authFailed, upgradeAttempted := false, st := st' }
    else if !upgradeOk then { outcome := .upgradeFailed, upgradeAttempted := true, st := st' }
    else if !registerOk then { outcome := .registerFailed, upgradeAttempted := true, st := st' }
    else { outcome := .connected, upgradeAttempted := true, st := st' }

/-- The per-address attempts that fall within the rolling 60-second window
(the list `checkRateLimit` prunes to). -/
def prunedWindow (st : RateLimitState) (clientIP : String) (now : Int) : List Int :=
  ((alookup clientIP st.rateLimitMap).getD []).filter (fun t => t > now - 60)

/-! ## Concrete fixtures used by the witnesses -/

def tNone : FakeTransport := { sendErr := none, closes := [] }

def tFail : FakeTransport := { sendErr := some "boom", closes := [] }

def connFail : Connection := NewConnection "gw-1" 0 tFail "tok" 0

def connOk : Connection := NewConnection "gw-1" 1 tNone "tok" 0

def mBroadcast : Manager :=
  { conns := [("gw-1", [connFail, connOk])], connectionCount := 2,
    maxConnections := 10, heartbeatTimeout := 30, nextConnID := 2 }

def cExpired : Connection := NewConnection "gw-1" 0 tNone "tok" 0

def mHeartbeat : Manager :=
  { conns := [("gw-1", [cExpired])], connectionCount := 1,
    maxConnections := 10, heartbeatTimeout := 30, nextConnID := 1 }

def rlState : RateLimitState :=
  { rateLimitMap := [("10.0.0.1", [0, 30, 100])], rateLimitCount := 2 }

def credsW : GatewayCredentials := { username := "admin", password := "s3cret" }

def keyW : List Nat := List.replicate 32 0

def keyW2 : List Nat := List.replicate 32 1

def nonceW : List Nat := List.replicate 12 2

def ctW : List Nat := nonceW ++ gcmSeal keyW nonceW (credsMarshal credsW)

/-! ## Association-list lemmas -/

theorem alookup_astore_self {α : Type} (k : String) (v : α) (l : List (String × α)) :
    alookup k (astore k v l) = some v := by
  induction l with
  | nil => simp [alookup, astore]
  | cons hd tl ih =>
    obtain ⟨k', v'⟩ := hd
    by_cases h : k' = k
    · simp [alookup, astore, h]
    · simp [alookup, astore, h, ih]

theorem alookup_astore_ne {α : Type} {k k' : String} (h : k' ≠ k) (v : α)
    (l : List (String × α)) : alookup k' (astore k v l) = alookup k' l := by
  induction l with
  | nil => simp [alookup, astore, Ne.symm h]
  | cons hd tl ih =>
    obtain ⟨k'', v'⟩ := hd
    by_cases hk : k'' = k
    · subst hk
      simp [alookup, astore, Ne.symm h]
    · by_cases hk' : k'' = k'
      · simp [alookup, astore, hk, hk', h]
      · simp [alookup, astore, hk, hk', ih]

theorem alookup_eq_none_iff {α : Type} (k : String) (l : List (String × α)) :
    alookup k l = none ↔ k ∉ l.map Prod.fst := by
  induction l with
  | nil => simp [alookup]
  | cons hd tl ih =>
    obtain ⟨k', v'⟩ := hd
    by_cases h : k' = k
    · simp [alookup, h]
    · simp [alookup, h, ih, Ne.symm h]

theorem alookup_mem_keys {α : Type} {k : String} {v : α} {l : List (String × α)}
    (h : alookup k l = some v) : k ∈ l.map Prod.fst := by
  by_contra hmem
  rw [← alookup_eq_none_iff] at hmem
  rw [h] at hmem
  exact Option.noConfusion hmem

theorem alookup_mem {α : Type} {k : String} {v : α} {l : List (String × α)}
    (h : alookup k l = some v) : (k, v) ∈ l := by
  induction l with
  | nil => simp [alookup] at h
  | cons hd tl ih =>
    obtain ⟨k', v'⟩ := hd
    by_cases hk : k' = k
    · simp only [alookup, if_pos hk] at h
      cases h
      subst hk
      exact List.mem_cons_self _ _
    · simp only [alookup, if_neg hk] at h
      exact List.mem_cons_of_mem _ (ih h)

theorem adelete_sublist {α : Type} (k : String) (l : List (String × α)) :
    (adelete k l).Sublist l := by
  induction l with
  | nil => simp [adelete]
  | cons hd tl ih =>
    obtain ⟨k', v'⟩ := hd
    by_cases h : k' = k
    · rw [adelete, if_pos h]
      exact List.sublist_cons_self (k', v') tl
    · rw [adelete, if_neg h]
      exact ih.cons₂ (k', v')

theorem adelete_eq_of_none {α : Type} {k : String} {l : List (String × α)}
    (h : alookup k l = none) : adelete k l = l := by
  induction l with
  | nil => simp [adelete]
  | cons hd tl ih =>
    obtain ⟨k', v'⟩ := hd
    by_cases hk : k' = k
    · simp [alookup, hk] at h
    · simp [alookup, hk] at h
      simp [adelete, hk, ih h]

theorem alookup_adelete_self {α : Type} {k : String} {l : List (String × α)}
    (hnd : (l.map Prod.fst).Nodup) : alookup k (adelete k l) = none := by
  induction l with
  | nil => simp [adelete, alookup]
  | cons hd tl ih =>
    obtain ⟨k', v'⟩ := hd
    simp only [List.map_cons, List.nodup_cons] at hnd
    by_cases h : k' = k
    · subst h
      simp only [adelete, if_pos rfl]
      rw [alookup_eq_none_iff]
      exact hnd.1
    · simp [adelete, alookup, h, ih hnd.2]

theorem keys_astore_mem {α : Type} {k : String} {l : List (String × α)}
    (h : k ∈ l.map Prod.fst) (v : α) :
    (astore k v l).map Prod.fst = l.map Prod.fst := by
  induction l with
  | nil => simp at h
  | cons hd tl ih =>
    obtain ⟨k', v'⟩ := hd
    by_cases hk : k' = k
    · simp [astore, hk]
    · simp only [List.map_cons, List.mem_cons] at h
      rcases h with h | h
      · exact absurd h.symm hk
      · simp [astore, hk, ih h]

theorem keys_astore_not_mem {α : Type} {k : String} {l : List (String × α)}
    (h : k ∉ l.map Prod.fst) (v : α) :
    (astore k v l).map Prod.fst = l.map Prod.fst ++ [k] := by
  induction l with
  | nil => simp [astore]
  | cons hd tl ih =>
    obtain ⟨k', v'⟩ := hd
    simp only [List.map_cons, List.mem_cons] at h
    push_neg at h
    by_cases hk : k' = k
    · exact absurd hk.symm h.1
    · simp [astore, hk, ih h.2]

theorem mem_astore {α : Type} {k : String} {v : α} {l : List (String × α)} {p : String × α}
    (h : p ∈ astore k v l) : p = (k, v) ∨ p ∈ l := by
  induction l with
  | nil => simpa [astore] using h
  | cons hd tl ih =>
    obtain ⟨k', v'⟩ := hd
    by_cases hk : k' = k
    · simp only [astore, if_pos hk, List.mem_cons] at h
      rcases h with h | h
      · exact Or.inl h
      · exact Or.inr (List.mem_cons_of_mem _ h)
    · simp only [astore, if_neg hk, List.mem_cons] at h
      rcases h with h | h
      · exact Or.inr (List.mem_cons.2 (Or.inl h))
      · rcases ih h with h' | h'
        · exact Or.inl h'
        · exact Or.inr (List.mem_cons_of_mem _ h')

/-! ## Counting and connection-ID lemmas -/

theorem sumConns_astore_some {k : String} {w : List Connection}
    {l : List (String × List Connection)} (h : alookup k l = some w)
    (v : List Connection) :
    sumConns (astore k v l) + w.length = sumConns l + v.length := by
  induction l with
  | nil => simp [alookup] at h
  | cons hd tl ih =>
    obtain ⟨k', w'⟩ := hd
    by_cases hk : k' = k
    · simp only [alookup, if_pos hk] at h
      cases h
      simp [astore, hk, sumConns]
      omega
    · simp only [alookup, if_neg hk] at h
      simp only [astore, if_neg hk, sumConns]
      have := ih h
      omega

theorem sumConns_astore_none {k : String} {l : List (String × List Connection)}
    (h : alookup k l = none) (v : List Connection) :
    sumConns (astore k v l) = sumConns l + v.length := by
  induction l with
  | nil => simp [astore, sumConns]
  | cons hd tl ih =>
    obtain ⟨k', w'⟩ := hd
    by_cases hk : k' = k
    · simp [alookup, hk] at h
    · simp only [alookup, if_neg hk] at h
      simp only [astore, if_neg hk, sumConns]
      have := ih h
      omega

theorem sumConns_adelete {k : String} {w : List Connection}
    {l : List (String × List Connection)} (h : alookup k l = some w) :
    sumConns (adelete k l) + w.length = sumConns l := by
  induction l with
  | nil => simp [alookup] at h
  | cons hd tl ih =>
    obtain ⟨k', w'⟩ := hd
    by_cases hk : k' = k
    · simp only [alookup, if_pos hk] at h
      cases h
      simp [adelete, hk, sumConns]
      omega
    · simp only [alookup, if_neg hk] at h
      simp only [adelete, if_neg hk, sumConns]
      have := ih h
      omega

/-- `Register`'s map update (`LoadOrStore` + append + `Store`) adds exactly
the new connection's ID to the stored IDs, up to permutation. -/
theorem allConnIDs_register_perm (k : String) (c : Connection)
    (l : List (String × List Connection)) :
    (allConnIDs (astore k ((alookup k l).getD [] ++ [c]) l)).Perm
      (c.connectionID :: allConnIDs l) := by
  induction l with
  | nil => simp [alookup, astore, allConnIDs]
  | cons hd tl ih =>
    obtain ⟨k', w'⟩ := hd
    by_cases hk : k' = k
    · simp only [alookup, if_pos hk, Option.getD_some, astore, allConnIDs,
        List.map_append, List.map_cons, List.map_nil]
      rw [List.append_assoc, List.singleton_append]
      exact List.perm_middle
    · simp only [alookup, if_neg hk, astore, allConnIDs]
      exact (List.Perm.append_left _ ih).trans List.perm_middle

theorem allConnIDs_astore_sublist {k : String} {w : List Connection}
    {l : List (String × List Connection)} (h : alookup k l = some w)
    {v : List Connection} (hsub : (v.map (·.connectionID)).Sublist (w.map (·.connectionID))) :
    (allConnIDs (astore k v l)).Sublist (allConnIDs l) := by
  induction l with
  | nil => simp [alookup] at h
  | cons hd tl ih =>
    obtain ⟨k', w'⟩ := hd
    by_cases hk : k' = k
    · simp only [alookup, if_pos hk] at h
      cases h
      simp only [astore, if_pos hk, allConnIDs]
      exact hsub.append (List.Sublist.refl _)
    · simp only [alookup, if_neg hk] at h
      simp only [astore, if_neg hk, allConnIDs]
      exact (List.Sublist.refl _).append (ih h)

theorem allConnIDs_adelete_sublist (k : String) (l : List (String × List Connection)) :
    (allConnIDs (adelete k l)).Sublist (allConnIDs l) := by
  induction l with
  | nil => simp [adelete, allConnIDs]
  | cons hd tl ih =>
    obtain ⟨k', w'⟩ := hd
    by_cases hk : k' = k
    · simp only [adelete, if_pos hk, allConnIDs]
      exact List.sublist_append_right _ _
    · simp only [adelete, if_neg hk, allConnIDs]
      exact (List.Sublist.refl _).append ih

theorem allConnIDs_astore_eq {k : String} {w : List Connection}
    {l : List (String × List Connection)} (h : alookup k l = some w)
    {v : List Connection} (hid : v.map (·.connectionID) = w.map (·.connectionID)) :
    allConnIDs (astore k v l) = allConnIDs l := by
  induction l with
  | nil => simp [alookup] at h
  | cons hd tl ih =>
    obtain ⟨k', w'⟩ := hd
    by_cases hk : k' = k
    · simp only [alookup, if_pos hk] at h
      cases h
      simp [astore, hk, allConnIDs, hid]
    · simp only [alookup, if_neg hk] at h
      simp [astore, hk, allConnIDs, ih h]

theorem mem_allConnIDs_of_lookup {k : String} {w : List Connection}
    {l : List (String × List Connection)} (h : alookup k l = some w)
    {c : Connection} (hc : c ∈ w) : c.connectionID ∈ allConnIDs l := by
  induction l with
  | nil => simp [alookup] at h
  | cons hd tl ih =>
    obtain ⟨k', w'⟩ := hd
    by_cases hk : k' = k
    · simp only [alookup, if_pos hk] at h
      cases h
      simp only [allConnIDs, List.mem_append]
      exact Or.inl (List.mem_map_of_mem _ hc)
    · simp only [alookup, if_neg hk] at h
      simp only [allConnIDs, List.mem_append]
      exact Or.inr (ih h)

theorem nodup_entry_of_lookup {k : String} {w : List Connection}
    {l : List (String × List Connection)} (hnd : (allConnIDs l).Nodup)
    (h : alookup k l = some w) : (w.map (·.connectionID)).Nodup := by
  induction l with
  | nil => simp [alookup] at h
  | cons hd tl ih =>
    obtain ⟨k', w'⟩ := hd
    simp only [allConnIDs, List.nodup_append] at hnd
    by_cases hk : k' = k
    · simp only [alookup, if_pos hk] at h
      cases h
      exact hnd.1
    · simp only [alookup, if_neg hk] at h
      exact ih hnd.2.1 h

theorem length_filter_add_length_filter_not {α : Type} (l : List α) (p : α → Bool) :
    (l.filter p).length + (l.filter (fun a => !p a)).length = l.length := by
  induction l with
  | nil => simp
  | cons hd tl ih =>
    by_cases h : p hd
    · simp [List.filter, h, ih]
      omega
    · simp only [Bool.not_eq_true] at h
      simp [List.filter, h, ih]
      omega

/-- In a slice with pairwise-distinct connection IDs, filtering for some
member's ID yields exactly that member. -/
theorem filter_eq_single_of_nodup {w : List Connection}
    (hnd : (w.map (·.connectionID)).Nodup) {c : Connection} (hc : c ∈ w) :
    w.filter (fun d => d.connectionID == c.connectionID) = [c] := by
  induction w with
  | nil => simp at hc
  | cons hd tl ih =>
    simp only [List.map_cons, List.nodup_cons] at hnd
    rcases List.mem_cons.1 hc with hh | hh
    · subst hh
      have hrest : tl.filter (fun d => d.connectionID == c.connectionID) = [] := by
        rw [List.filter_eq_nil_iff]
        intro d hd
        simp only [beq_iff_eq]
        intro hid
        exact hnd.1 (hid ▸ List.mem_map_of_mem _ hd)
      rw [List.filter_cons]
      simp [hrest]
    · have hne : (hd.connectionID == c.connectionID) = false := by
        simp only [beq_eq_false_iff_ne, ne_eq]
        intro hid
        exact hnd.1 (hid ▸ List.mem_map_of_mem _ hh)
      rw [List.filter_cons, hne]
      simp only [Bool.false_eq_true, if_false]
      exact ih hnd.2 hh

/-! ## Characterizations of the registry operations -/

theorem register_of_ge {m : Manager} (h : m.connectionCount ≥ m.maxConnections)
    (gid : String) (t : FakeTransport) (tok : String) (now : Int) :
    m.register gid t tok now = (.error "maximum connection limit reached", m) := by
  unfold Manager.register
  rw [if_pos h]

theorem register_of_lt {m : Manager} (h : m.connectionCount < m.maxConnections)
    (gid : String) (t : FakeTransport) (tok : String) (now : Int) :
    m.register gid t tok now =
      (.ok (NewConnection gid m.nextConnID t tok now),
       { m with connectionCount := m.connectionCount + 1,
                conns := astore gid ((alookup gid m.conns).getD []
                           ++ [NewConnection gid m.nextConnID t tok now]) m.conns,
                nextConnID := m.nextConnID + 1 }) := by
  unfold Manager.register
  rw [if_neg (not_le.2 h)]

theorem unregister_of_lookup_none {m : Manager} {gid : String}
    (h : alookup gid m.conns = none) (cid : Nat) : m.unregister gid cid = (m, none) := by
  unfold Manager.unregister
  rw [h]

theorem unregister_of_no_match {m : Manager} {gid : String} {conns : List Connection}
    (h : alookup gid m.conns = some conns) {cid : Nat}
    (hno : (conns.filter (fun c => c.connectionID == cid)).getLast? = none) :
    m.unregister gid cid = (m, none) := by
  unfold Manager.unregister
  rw [h]
  dsimp only
  rw [hno]

theorem unregister_of_match {m : Manager} {gid : String} {conns : List Connection}
    (h : alookup gid m.conns = some conns) {cid : Nat} {r : Connection}
    (hr : (conns.filter (fun c => c.connectionID == cid)).getLast? = some r) :
    m.unregister gid cid =
      ({ m with conns := if (conns.filter (fun c => c.connectionID != cid)).isEmpty
                         then adelete gid m.conns
                         else astore gid (conns.filter (fun c => c.connectionID != cid)) m.conns,
                connectionCount := m.connectionCount - 1 },
       some (r.close 1000 "normal closure")) := by
  unfold Manager.unregister
  rw [h]
  dsimp only
  rw [hr]

/-! ## Preservation of the registry invariant -/

theorem wf_newManager (maxConnections heartbeatTimeout : Int) :
    (NewManager maxConnections heartbeatTimeout).WF := by
  refine ⟨?_, ?_, ?_, ?_, ?_⟩ <;> simp [NewManager, sumConns, allConnIDs]

theorem wf_register {m : Manager} (hwf : m.WF) (gid : String) (t : FakeTransport)
    (tok : String) (now : Int) : ((m.register gid t tok now).2).WF := by
  by_cases hcap : m.connectionCount ≥ m.maxConnections
  · rw [register_of_ge hcap]
    exact hwf
  · rw [register_of_lt (not_le.1 hcap)]
    set c := NewConnection gid m.nextConnID t tok now with hc
    have hperm := allConnIDs_register_perm gid c m.conns
    constructor
    · by_cases hmem : gid ∈ m.conns.map Prod.fst
      · simpa [keys_astore_mem hmem] using hwf.keys_nodup
      · rw [keys_astore_not_mem hmem]
        rw [List.nodup_append]
        refine ⟨hwf.keys_nodup, List.nodup_singleton gid, ?_⟩
        intro a ha hb
        rw [List.mem_singleton] at hb
        exact hmem (hb ▸ ha)
    · intro p hp
      rcases mem_astore hp with hp | hp
      · rw [hp]
        simp
      · exact hwf.entries_nonempty p hp
    · cases hl : alookup gid m.conns with
      | none =>
        simp only [Option.getD_none, List.nil_append]
        have hs : sumConns (astore gid [c] m.conns) = sumConns m.conns + 1 := by
          simpa using sumConns_astore_none hl [c]
        rw [hs, hwf.count_eq]
        push_cast
        ring
      | some w =>
        simp only [Option.getD_some]
        have hs : sumConns (astore gid (w ++ [c]) m.conns) = sumConns m.conns + 1 := by
          have h2 := sumConns_astore_some hl (w ++ [c])
          simp only [List.length_append, List.length_cons, List.length_nil] at h2
          omega
        rw [hs, hwf.count_eq]
        push_cast
        ring
    · rw [hperm.nodup_iff]
      rw [List.nodup_cons]
      refine ⟨?_, hwf.ids_nodup⟩
      intro hmem
      exact absurd (hwf.ids_lt _ hmem) (by simp [hc, NewConnection])
    · intro n hn
      rcases List.mem_cons.1 (hperm.mem_iff.1 hn) with h | h
      · subst h
        simp only [hc, NewConnection]
        omega
      · exact Nat.lt_succ_of_lt (hwf.ids_lt n h)

theorem wf_unregister {m : Manager} (hwf : m.WF) (gid : String) (cid : Nat) :
    ((m.unregister gid cid).1).WF := by
  cases hl : alookup gid m.conns with
  | none =>
    rw [unregister_of_lookup_none hl]
    exact hwf
  | some conns =>
    cases hr : (conns.filter (fun c => c.connectionID == cid)).getLast? with
    | none =>
      rw [unregister_of_no_match hl hr]
      exact hwf
    | some r =>
      rw [unregister_of_match hl hr]
      have hrmem : r ∈ conns.filter (fun c => c.connectionID == cid) :=
        List.mem_of_mem_getLast? (by rw [hr]; rfl)
      have hrconns : r ∈ conns := (List.mem_filter.1 hrmem).1
      have hrid : r.connectionID = cid := by
        have := (List.mem_filter.1 hrmem).2
        simpa using this
      have hednd : (conns.map (·.connectionID)).Nodup :=
        nodup_entry_of_lookup hwf.ids_nodup hl
      have hfil : conns.filter (fun d => d.connectionID == r.connectionID) = [r] :=
        filter_eq_single_of_nodup hednd hrconns
      have hmatch : conns.filter (fun d => d.connectionID == cid) = [r] := by
        rw [← hrid]
        exact hfil
      have hlen : (conns.filter (fun c => c.connectionID != cid)).length + 1 = conns.length := by
        have h2 := length_filter_add_length_filter_not conns (fun c => c.connectionID == cid)
        rw [hmatch] at h2
        simp only [List.length_cons, List.length_nil] at h2
        have : (conns.filter (fun c => !(c.connectionID == cid))).length
             = (conns.filter (fun c => c.connectionID != cid)).length := rfl
        omega
      by_cases hemp : (conns.filter (fun c => c.connectionID != cid)).isEmpty
      · rw [if_pos hemp]
        have hconnslen : conns.length = 1 := by
          rw [List.isEmpty_iff] at hemp
          rw [hemp] at hlen
          simpa using hlen.symm
        constructor
        · exact hwf.keys_nodup.sublist ((adelete_sublist gid m.conns).map Prod.fst)
        · intro p hp
          exact hwf.entries_nonempty p ((adelete_sublist gid m.conns).mem hp)
        · have := sumConns_adelete hl
          rw [hconnslen] at this
          simp only [hwf.count_eq]
          omega
        · exact hwf.ids_nodup.sublist (allConnIDs_adelete_sublist gid m.conns)
        · intro n hn
          exact hwf.ids_lt n ((allConnIDs_adelete_sublist gid m.conns).mem hn)
      · rw [if_neg hemp]
        have hkey : gid ∈ m.conns.map Prod.fst := alookup_mem_keys hl
        have hsub : ((conns.filter (fun c => c.connectionID != cid)).map
            (·.connectionID)).Sublist (conns.map (·.connectionID)) :=
          (List.filter_sublist conns).map _
        constructor
        · simpa [keys_astore_mem hkey] using hwf.keys_nodup
        · intro p hp
          rcases mem_astore hp with hp | hp
          · rw [hp]
            intro hnil
            rw [List.isEmpty_iff] at hemp
            simp only at hnil
            exact hemp hnil
          · exact hwf.entries_nonempty p hp
        · have := sumConns_astore_some hl (conns.filter (fun c => c.connectionID != cid))
          simp only [hwf.count_eq]
          omega
        · exact hwf.ids_nodup.sublist (allConnIDs_astore_sublist hl hsub)
        · intro n hn
          exact hwf.ids_lt n ((allConnIDs_astore_sublist hl hsub).mem hn)

theorem wf_pong {m : Manager} (hwf : m.WF) (gid : String) (cid : Nat) (now : Int) :
    (m.pong gid cid now).WF := by
  unfold Manager.pong
  cases hl : alookup gid m.conns with
  | none => exact hwf
  | some conns =>
    dsimp only
    have hkey : gid ∈ m.conns.map Prod.fst := alookup_mem_keys hl
    have hid : ((conns.map (fun c => if c.connectionID == cid
        then c.updateHeartbeat now else c)).map (·.connectionID))
        = conns.map (·.connectionID) := by
      rw [List.map_map]
      refine List.map_congr_left ?_
      intro a _
      simp only [Function.comp_apply]
      split <;> rfl
    constructor
    · simpa [keys_astore_mem hkey] using hwf.keys_nodup
    · intro p hp
      rcases mem_astore hp with hp | hp
      · rw [hp]
        have := hwf.entries_nonempty _ (alookup_mem hl)
        simp only [ne_eq, List.map_eq_nil_iff]
        exact this
      · exact hwf.entries_nonempty p hp
    · have := sumConns_astore_some hl (conns.map (fun c =>
        if c.connectionID == cid then c.updateHeartbeat now else c))
      simp only [List.length_map] at this
      simp only [hwf.count_eq]
      omega
    · rw [allConnIDs_astore_eq hl hid]
      exact hwf.ids_nodup
    · rw [allConnIDs_astore_eq hl hid]
      exact hwf.ids_lt

theorem wf_tick {m : Manager} (hwf : m.WF) (gid : String) (cid : Nat) (now : Int)
    (pingOk : Bool) : ((m.monitorHeartbeatTick gid cid now pingOk).1).WF := by
  unfold Manager.monitorHeartbeatTick
  cases hl : alookup gid m.conns with
  | none => exact hwf
  | some conns =>
    dsimp only
    cases hr : (conns.filter (fun c => c.connectionID == cid)).getLast? with
    | none => exact hwf
    | some conn =>
      dsimp only
      by_cases hcl : conn.closed
      · simp only [hcl, if_true]
        exact hwf
      · simp only [hcl, if_false]
        by_cases hexp : now - conn.lastHeartbeat > m.heartbeatTimeout
        · rw [if_pos hexp]
          exact wf_unregister hwf _ _
        · rw [if_neg hexp]
          by_cases hping : pingOk
          · simp only [hping]
            exact hwf
          · simp only [hping]
            exact wf_unregister hwf _ _

theorem wf_applyOp {m : Manager} (hwf : m.WF) (op : MOp) : (m.applyOp op).WF := by
  cases op with
  | register gid sendErr tok now => exact wf_register hwf gid _ tok now
  | unregister gid cid => exact wf_unregister hwf gid cid
  | hbTick gid cid now pingOk => exact wf_tick hwf gid cid now pingOk
  | pong gid cid now => exact wf_pong hwf gid cid now

theorem wf_run {m : Manager} (hwf : m.WF) (ops : List MOp) : (m.run ops).WF := by
  induction ops generalizing m with
  | nil => exact hwf
  | cons op ops ih => exact ih (wf_applyOp hwf op)

/-! ## Credential-vault lemmas -/

theorem codesStr_strCodes (s : String) : codesStr (strCodes s) = s := by
  unfold codesStr strCodes
  rw [List.map_map]
  have h : s.data.map (Char.ofNat ∘ Char.toNat) = s.data.map id :=
    List.map_congr_left (fun a _ => Char.ofNat_toNat a)
  rw [h, List.map_id]

theorem strCodes_length (s : String) : (strCodes s).length = s.length := by
  unfold strCodes
  rw [List.length_map]
  rfl

theorem credsUnmarshal_credsMarshal (c : GatewayCredentials) :
    credsUnmarshal (credsMarshal c) = some c := by
  have hu : (strCodes c.username).length = c.username.length := strCodes_length _
  have hp : (strCodes c.password).length = c.password.length := strCodes_length _
  have hdrop : (strCodes c.username ++ c.password.length :: strCodes c.password).drop
      c.username.length = c.password.length :: strCodes c.password := List.drop_left' hu
  have htake : (strCodes c.username ++ c.password.length :: strCodes c.password).take
      c.username.length = strCodes c.username := List.take_left' hu
  have hlen : c.username.length ≤
      (strCodes c.username ++ c.password.length :: strCodes c.password).length := by
    simp only [List.length_append, List.length_cons, hu]
    omega
  unfold credsMarshal credsUnmarshal
  dsimp only
  rw [if_pos hlen, hdrop]
  dsimp only
  rw [if_pos hp.symm, htake, codesStr_strCodes, codesStr_strCodes]

theorem gcmOpen_gcmSeal {key nonce : List Nat} (hk : key.length = KeySize)
    (hn : nonce.length = NonceSize) (pt : List Nat) :
    gcmOpen key nonce (gcmSeal key nonce pt) = some pt := by
  unfold gcmSeal gcmOpen
  rw [List.append_assoc]
  have hlen : (pt ++ (key ++ nonce)).length = pt.length + (KeySize + NonceSize) := by
    simp only [List.length_append, hk, hn]
  rw [hlen]
  have hidx : pt.length + (KeySize + NonceSize) - (KeySize + NonceSize) = pt.length := by
    omega
  rw [hidx, List.drop_left, List.take_left]
  rw [if_pos ⟨Nat.le_add_left _ _, rfl⟩]

theorem gcmOpen_wrong_key {key key' nonce : List Nat} (hk : key.length = KeySize)
    (hk' : key'.length = KeySize) (hn : nonce.length = NonceSize) (hne : key' ≠ key)
    (pt : List Nat) : gcmOpen key' nonce (gcmSeal key nonce pt) = none := by
  unfold gcmSeal gcmOpen
  rw [List.append_assoc]
  have hlen : (pt ++ (key ++ nonce)).length = pt.length + (KeySize + NonceSize) := by
    simp only [List.length_append, hk, hn]
  rw [hlen]
  have hidx : pt.length + (KeySize + NonceSize) - (KeySize + NonceSize) = pt.length := by
    omega
  rw [hidx, List.drop_left]
  have hno : ¬(KeySize + NonceSize ≤ pt.length + (KeySize + NonceSize) ∧
      key ++ nonce = key' ++ nonce) := by
    rintro ⟨-, heq⟩
    exact hne ((List.append_inj heq (by rw [hk, hk'])).1).symm
  rw [if_neg hno]

/-! ## Claim theorems -/

/-- C1: in every state in which the registry's connection count has reached
`maxConnections`, the next `Register` call returns the capacity error and
leaves the registry unchanged — no new connection is stored, the count remains
exactly `maxConnections`, and no existing connection is evicted or closed;
every `Register` call made while the count is below `maxConnections` succeeds
and returns a new `Connection`, which is appended to the gateway's slice. -/
theorem spec_c1_register_capacity (m : Manager) (gid : String) (t : FakeTransport)
    (tok : String) (now : Int) :
    (m.connectionCount = m.maxConnections →
      m.register gid t tok now = (.error "maximum connection limit reached", m)) ∧
    (m.connectionCount < m.maxConnections →
      ∃ c, (m.register gid t tok now).1 = .ok c ∧
        alookup gid ((m.register gid t tok now).2).conns
          = some ((alookup gid m.conns).getD [] ++ [c])) := by
  constructor
  · intro hfull
    exact register_of_ge (le_of_eq hfull.symm) gid t tok now
  · intro hlt
    refine ⟨NewConnection gid m.nextConnID t tok now, ?_, ?_⟩
    · rw [register_of_lt hlt]
    · rw [register_of_lt hlt]
      exact alookup_astore_self gid _ m.conns

/-- Witness for C1: a registry at capacity 0 rejects `Register` unchanged; a
registry with headroom accepts it and stores the new connection. -/
theorem spec_c1_register_capacity_witness :
    ((NewManager 0 30).register "gw-1" { sendErr := none, closes := [] } "tok" 0
      = (.error "maximum connection limit reached", NewManager 0 30)) ∧
    ∃ c, (((NewManager 1 30).register "gw-2" { sendErr := none, closes := [] } "tok" 0).1
          = .ok c) ∧
      alookup "gw-2" (((NewManager 1 30).register "gw-2"
          { sendErr := none, closes := [] } "tok" 0).2).conns
        = some ((alookup "gw-2" (NewManager 1 30).conns).getD [] ++ [c]) :=
  ⟨(spec_c1_register_capacity (NewManager 0 30) "gw-1"
      { sendErr := none, closes := [] } "tok" 0).1 (by decide),
   (spec_c1_register_capacity (NewManager 1 30) "gw-2"
      { sendErr := none, closes := [] } "tok" 0).2 (by decide)⟩

/-- C2: after every sequential sequence of `Register` and `Unregister`
operations (heartbeat-driven unregistrations and pong receipts included),
`GetConnectionCount()` equals the total number of connections stored across
all gateway entries of the map, and no gateway ID maps to an empty
collection. -/
theorem spec_c2_count_invariant (maxConnections heartbeatTimeout : Int)
    (ops : List MOp) :
    ((NewManager maxConnections heartbeatTimeout).run ops).getConnectionCount
        = (sumConns ((NewManager maxConnections heartbeatTimeout).run ops).conns : Int) ∧
    ∀ p ∈ ((NewManager maxConnections heartbeatTimeout).run ops).conns, p.2 ≠ [] :=
  ⟨(wf_run (wf_newManager maxConnections heartbeatTimeout) ops).count_eq,
   (wf_run (wf_newManager maxConnections heartbeatTimeout) ops).entries_nonempty⟩

/-- C4: a `broadcastEvent` call whose payload serializes to more than 1 MiB
returns an error and performs zero `Send` calls, leaving the registry — and
with it every connection's `DeliveryStats` — unchanged, for every gateway ID
and connection state. -/
theorem spec_c4_broadcast_oversize (m : Manager) (gid : String) (payloadSize : Nat)
    (now : Int) (h : payloadSize > MaxEventPayloadSize) :
    broadcastEvent m gid payloadSize now
      = (some "event payload exceeds maximum size", m, 0) := by
  unfold broadcastEvent
  rw [if_pos h]

/-- C8: `CheckHealth` never returns a non-nil error (in particular not for a
reachable-but-unhealthy endpoint); it reports `ACTIVE` with the captured
latency on a 200 response, and `ERROR` with the captured latency and the
validation error message otherwise. -/
theorem spec_c8_checkhealth (o : HttpOutcome) (elapsed now : Int) :
    ((CheckHealth o elapsed now).2 = none) ∧
    (o = .response 200 →
      CheckHealth o elapsed now
        = ({ status := "ACTIVE", responseTime := elapsed, checkedAt := now,
             errorMessage := none }, none)) ∧
    (∀ msg, ValidateGatewayEndpoint o = some msg →
      CheckHealth o elapsed now
        = ({ status := "ERROR", responseTime := elapsed, checkedAt := now,
             errorMessage := some msg }, none)) := by
  refine ⟨?_, ?_, ?_⟩
  · unfold CheckHealth
    cases h : ValidateGatewayEndpoint o <;> simp
  · intro ho
    subst ho
    rfl
  · intro msg hmsg
    unfold CheckHealth
    rw [hmsg]

/-- Witness for C8 at a transport failure, an unhealthy 503 response, and a
healthy 200 response. -/
theorem spec_c8_checkhealth_witness :
    CheckHealth (.response 200) 5 9
      = ({ status := "ACTIVE", responseTime := 5, checkedAt := 9,
           errorMessage := none }, none) ∧
    CheckHealth (.transportError "connection refused") 5 9
      = ({ status := "ERROR", responseTime := 5, checkedAt := 9,
           errorMessage := some "gateway endpoint unreachable: connection refused" },
         none) :=
  ⟨(spec_c8_checkhealth (.response 200) 5 9).2.1 rfl,
   (spec_c8_checkhealth (.transportError "connection refused") 5 9).2.2
     "gateway endpoint unreachable: connection refused" rfl⟩

/-- C10: for a key of the valid 32-byte size, `DecryptCredentials` of any
blob shorter than the 12-byte nonce size returns the generic
invalid-ciphertext error — the nonce split is guarded by the length check. -/
theorem spec_c10_decrypt_short_blob (blob key : List Nat) (hk : key.length = KeySize)
    (hshort : blob.length < NonceSize) :
    DecryptCredentials blob key = .error .invalidCiphertext := by
  unfold DecryptCredentials
  rw [if_neg (by rw [hk]; exact fun hne => hne rfl), if_pos hshort]

/-- Witness for C10: a 3-byte blob under a valid 32-byte key. -/
theorem spec_c10_decrypt_short_blob_witness :
    DecryptCredentials [1, 2, 3] (List.replicate 32 0) = .error .invalidCiphertext :=
  spec_c10_decrypt_short_blob [1, 2, 3] (List.replicate 32 0) (by decide) (by decide)

/-- C3: for every gateway ID and payload within the 1 MiB ceiling,
`broadcastEvent` returns nil regardless of connection state and per-connection
`Send` outcomes; with zero live connections it performs no `Send` calls and
still succeeds; each connection whose `Send` fails has `failedDeliveries`
incremented by one with the failure reason recorded and `totalSent` unchanged;
each connection whose `Send` succeeds has `totalSent` incremented by one. -/
theorem spec_c3_broadcast_best_effort (m : Manager) (gid : String) (payloadSize : Nat)
    (now : Int) (h : payloadSize ≤ MaxEventPayloadSize) :
    (broadcastEvent m gid payloadSize now).1 = none ∧
    (m.getConnections gid = [] → broadcastEvent m gid payloadSize now = (none, m, 0)) ∧
    ((broadcastEvent m gid payloadSize now).2.1).getConnections gid
        = (m.getConnections gid).map (broadcastSendStep now) ∧
    (∀ c ∈ m.getConnections gid,
      (∀ e, c.sendErrResult = some e →
        (broadcastSendStep now c).deliveryStats.failedDeliveries
            = c.deliveryStats.failedDeliveries + 1 ∧
        (broadcastSendStep now c).deliveryStats.lastFailureReason
            = some ("send error: " ++ e) ∧
        (broadcastSendStep now c).deliveryStats.totalEventsSent
            = c.deliveryStats.totalEventsSent) ∧
      (c.sendErrResult = none →
        (broadcastSendStep now c).deliveryStats.totalEventsSent
            = c.deliveryStats.totalEventsSent + 1 ∧
        (broadcastSendStep now c).deliveryStats.failedDeliveries
            = c.deliveryStats.failedDeliveries)) := by
  have hnotgt : ¬payloadSize > MaxEventPayloadSize := not_lt.2 h
  refine ⟨?_, ?_, ?_, ?_⟩
  · unfold broadcastEvent
    rw [if_neg hnotgt]
    dsimp only
    by_cases he : (m.getConnections gid).isEmpty <;> simp [he]
  · intro hempty
    unfold broadcastEvent
    rw [if_neg hnotgt]
    dsimp only
    rw [hempty]
    rfl
  · unfold broadcastEvent
    rw [if_neg hnotgt]
    dsimp only
    by_cases he : (m.getConnections gid).isEmpty
    · rw [List.isEmpty_iff] at he
      simp [he]
    · simp only [he, if_false, Bool.false_eq_true]
      unfold Manager.getConnections
      rw [alookup_astore_self]
      rfl
  · intro c _
    constructor
    · intro e hse
      unfold broadcastSendStep
      rw [hse]
      simp [DeliveryStats.incrementFailed]
    · intro hse
      unfold broadcastSendStep
      rw [hse]
      simp [DeliveryStats.incrementTotalSent]

/-- C9: the rate limiter admits an attempt iff fewer than the configured
budget of recorded attempts from that address fall within the 60 seconds
preceding the attempt; timestamps older than 60 seconds are pruned and never
count — an admitted attempt stores exactly the pruned window plus its own
timestamp; a rejected attempt leaves the state unchanged and is answered
before any WebSocket upgrade is performed. -/
theorem spec_c9_rate_limiter (st : RateLimitState) (ip : String) (now : Int) :
    ((checkRateLimit st ip now).1 = true ↔
      (prunedWindow st ip now).length < st.rateLimitCount) ∧
    ((checkRateLimit st ip now).1 = true →
      alookup ip ((checkRateLimit st ip now).2).rateLimitMap
        = some (prunedWindow st ip now ++ [now])) ∧
    ((checkRateLimit st ip now).1 = false → (checkRateLimit st ip now).2 = st) ∧
    (∀ apiKeyPresent authOk upgradeOk registerOk : Bool,
      (checkRateLimit st ip now).1 = false →
        (Connect st ip now apiKeyPresent authOk upgradeOk registerOk).outcome
            = .rateLimited ∧
        (Connect st ip now apiKeyPresent authOk upgradeOk registerOk).upgradeAttempted
            = false) := by
  by_cases hge : (prunedWindow st ip now).length ≥ st.rateLimitCount
  · have hge' : (((alookup ip st.rateLimitMap).getD []).filter
        (fun t => t > now - 60)).length ≥ st.rateLimitCount := hge
    have hres : checkRateLimit st ip now = (false, st) := by
      unfold checkRateLimit
      rw [if_pos hge']
    refine ⟨?_, ?_, ?_, ?_⟩
    · rw [hres]
      exact iff_of_false (by simp) (not_lt.2 hge)
    · intro htrue
      rw [hres] at htrue
      simp at htrue
    · intro _
      rw [hres]
    · intro a b u r _
      unfold Connect
      rw [hres]
      exact ⟨rfl, rfl⟩
  · have hge' : ¬(((alookup ip st.rateLimitMap).getD []).filter
        (fun t => t > now - 60)).length ≥ st.rateLimitCount := hge
    have hres : checkRateLimit st ip now = (true,
        { st with rateLimitMap := astore ip (prunedWindow st ip now ++ [now]) st.rateLimitMap }) := by
      unfold checkRateLimit
      rw [if_neg hge']
      rfl
    refine ⟨?_, ?_, ?_, ?_⟩
    · rw [hres]
      exact iff_of_true rfl (not_le.1 hge)
    · intro _
      rw [hres]
      exact alookup_astore_self ip _ st.rateLimitMap
    · intro hfalse
      rw [hres] at hfalse
      simp at hfalse
    · intro a b u r hfalse
      rw [hres] at hfalse
      simp at hfalse

/-- Witness for C3: a registry with one always-failing and one succeeding
connection; the broadcast still returns nil. -/
theorem spec_c3_broadcast_best_effort_witness :
    (broadcastEvent mBroadcast "gw-1" 10 0).1 = none :=
  (spec_c3_broadcast_best_effort mBroadcast "gw-1" 10 0 (by decide)).1

/-- Witness for C4: a payload one byte over the ceiling is rejected with the
registry unchanged and zero sends. -/
theorem spec_c4_broadcast_oversize_witness :
    broadcastEvent mBroadcast "gw-1" (MaxEventPayloadSize + 1) 0
      = (some "event payload exceeds maximum size", mBroadcast, 0) :=
  spec_c4_broadcast_oversize mBroadcast "gw-1" (MaxEventPayloadSize + 1) 0
    (by decide)

/-- Witness for C9: with budget 2 and stored attempts `[0, 30, 100]`, the
attempt at 110 is admitted (only 100 is within the window) and the attempt is
recorded; after pruning, an over-budget state rejects without upgrading. -/
theorem spec_c9_rate_limiter_witness :
    (checkRateLimit rlState "10.0.0.1" 110).1 = true ∧
    alookup "10.0.0.1" ((checkRateLimit rlState "10.0.0.1" 110).2).rateLimitMap
      = some (prunedWindow rlState "10.0.0.1" 110 ++ [110]) ∧
    (Connect { rlState with rateLimitCount := 0 } "10.0.0.1" 110 true true true true).outcome
      = .rateLimited ∧
    (Connect { rlState with rateLimitCount := 0 } "10.0.0.1" 110 true true true
      true).upgradeAttempted = false := by
  have h1 := spec_c9_rate_limiter rlState "10.0.0.1" 110
  have h2 := spec_c9_rate_limiter { rlState with rateLimitCount := 0 } "10.0.0.1" 110
  have hadm : (checkRateLimit rlState "10.0.0.1" 110).1 = true := h1.1.2 (by decide)
  have hrej := h2.2.2.2 true true true true (by decide)
  exact ⟨hadm, h1.2.1 hadm, hrej.1, hrej.2⟩

/-- C5: `EncryptCredentials` with a 32-byte key succeeds, and
`DecryptCredentials` of the produced blob with the same key returns the
original credential record; decryption with any other 32-byte key returns the
invalid-ciphertext error; both operations under a key of any other length
return the invalid-key-size error. -/
theorem spec_c5_vault_roundtrip (c : GatewayCredentials) (key nonce : List Nat)
    (hk : key.length = KeySize) (hn : nonce.length = NonceSize) :
    (EncryptCredentials (some c) key nonce
        = .ok (nonce ++ gcmSeal key nonce (credsMarshal c))) ∧
    (∀ ct, EncryptCredentials (some c) key nonce = .ok ct →
        DecryptCredentials ct key = .ok c) ∧
    (∀ ct, EncryptCredentials (some c) key nonce = .ok ct →
        ∀ key', key'.length = KeySize → key' ≠ key →
          DecryptCredentials ct key' = .error .invalidCiphertext) ∧
    (∀ key', key'.length ≠ KeySize →
        EncryptCredentials (some c) key' nonce = .error .invalidKeySize ∧
        ∀ blob, DecryptCredentials blob key' = .error .invalidKeySize) := by
  have hkeq : ¬key.length ≠ KeySize := fun hne => hne hk
  have henc : EncryptCredentials (some c) key nonce
      = .ok (nonce ++ gcmSeal key nonce (credsMarshal c)) := by
    unfold EncryptCredentials
    dsimp only
    rw [if_neg hkeq]
  have hctlen : ∀ pt : List Nat, ¬(nonce ++ gcmSeal key nonce pt).length < NonceSize := by
    intro pt
    rw [not_lt, List.length_append, hn]
    omega
  have htake : ∀ pt : List Nat, (nonce ++ gcmSeal key nonce pt).take NonceSize = nonce :=
    fun pt => List.take_left' hn
  have hdrop : ∀ pt : List Nat,
      (nonce ++ gcmSeal key nonce pt).drop NonceSize = gcmSeal key nonce pt :=
    fun pt => List.drop_left' hn
  refine ⟨henc, ?_, ?_, ?_⟩
  · intro ct hct
    rw [henc] at hct
    cases hct
    unfold DecryptCredentials
    rw [if_neg hkeq, if_neg (hctlen _), htake, hdrop]
    dsimp only
    rw [gcmOpen_gcmSeal hk hn]
    dsimp only
    rw [credsUnmarshal_credsMarshal]
  · intro ct hct key' hk' hne
    rw [henc] at hct
    cases hct
    unfold DecryptCredentials
    rw [if_neg (fun hne2 => hne2 hk'), if_neg (hctlen _), htake, hdrop]
    dsimp only
    rw [gcmOpen_wrong_key hk hk' hn hne]
  · intro key' hk'
    constructor
    · unfold EncryptCredentials
      dsimp only
      rw [if_pos hk']
    · intro blob
      unfold DecryptCredentials
      rw [if_pos hk']

/-- Witness for C5: a concrete credential record round-trips under an all-zero
32-byte key, fails with invalid-ciphertext under a different 32-byte key, and
both operations reject a 31-byte key with the invalid-key-size error. -/
theorem spec_c5_vault_roundtrip_witness :
    DecryptCredentials ctW keyW = .ok credsW ∧
    DecryptCredentials ctW keyW2 = .error .invalidCiphertext ∧
    EncryptCredentials (some credsW) (List.replicate 31 0) nonceW
      = .error .invalidKeySize ∧
    DecryptCredentials ctW (List.replicate 31 0) = .error .invalidKeySize := by
  have h := spec_c5_vault_roundtrip credsW keyW nonceW (by decide) (by decide)
  refine ⟨h.2.1 ctW ?_, h.2.2.1 ctW ?_ keyW2 (by decide) (by decide),
    (h.2.2.2 (List.replicate 31 0) (by decide)).1,
    (h.2.2.2 (List.replicate 31 0) (by decide)).2 ctW⟩
  · exact h.1
  · exact h.1

/-- C7: `Unregister` is idempotent — after a successful `Unregister` of a
pair, a second sequential `Unregister` of the same pair is a no-op and the
count is decremented exactly once in total; `Unregister` of a pair that was
never registered changes nothing; a successful `Unregister` marks the removed
connection closed, and closes its transport with the normal-closure code when
it was still open. -/
theorem spec_c7_unregister_idempotent (m : Manager) (gid : String) (cid : Nat)
    (hkeys : (m.conns.map Prod.fst).Nodup) :
    ((m.unregister gid cid).1).unregister gid cid = ((m.unregister gid cid).1, none) ∧
    (∀ c, (m.unregister gid cid).2 = some c →
        ((m.unregister gid cid).1).connectionCount = m.connectionCount - 1) ∧
    ((∀ conns, alookup gid m.conns = some conns → ∀ d ∈ conns, d.connectionID ≠ cid) →
        m.unregister gid cid = (m, none)) ∧
    (∀ c, (m.unregister gid cid).2 = some c → c.closed = true) ∧
    ((∀ p ∈ m.conns, ∀ d ∈ p.2, d.closed = false) →
        ∀ c, (m.unregister gid cid).2 = some c →
          ((1000 : Int), "normal closure") ∈ c.transport.closes) := by
  cases hl : alookup gid m.conns with
  | none =>
    have hru := unregister_of_lookup_none hl cid
    refine ⟨?_, ?_, ?_, ?_, ?_⟩
    · rw [hru]
      exact hru
    · intro c hc
      rw [hru] at hc
      simp at hc
    · intro _
      exact hru
    · intro c hc
      rw [hru] at hc
      simp at hc
    · intro _ c hc
      rw [hru] at hc
      simp at hc
  | some conns =>
    cases hr : (conns.filter (fun c => c.connectionID == cid)).getLast? with
    | none =>
      have hru := unregister_of_no_match hl hr
      refine ⟨?_, ?_, ?_, ?_, ?_⟩
      · rw [hru]
        exact hru
      · intro c hc
        rw [hru] at hc
        simp at hc
      · intro _
        exact hru
      · intro c hc
        rw [hru] at hc
        simp at hc
      · intro _ c hc
        rw [hru] at hc
        simp at hc
    | some r =>
      have hru := unregister_of_match hl hr
      have hrmem : r ∈ conns.filter (fun c => c.connectionID == cid) :=
        List.mem_of_mem_getLast? (by rw [hr]; rfl)
      have hrconns : r ∈ conns := (List.mem_filter.1 hrmem).1
      have hrid : r.connectionID = cid := by
        have := (List.mem_filter.1 hrmem).2
        simpa using this
      refine ⟨?_, ?_, ?_, ?_, ?_⟩
      · rw [hru]
        by_cases hemp : (conns.filter (fun c => c.connectionID != cid)).isEmpty
        · rw [if_pos hemp]
          exact unregister_of_lookup_none (alookup_adelete_self hkeys) cid
        · rw [if_neg hemp]
          refine unregister_of_no_match (alookup_astore_self gid _ m.conns) ?_
          have : (conns.filter (fun c => c.connectionID != cid)).filter
              (fun c => c.connectionID == cid) = [] := by
            rw [List.filter_eq_nil_iff]
            intro d hd
            have := (List.mem_filter.1 hd).2
            simp only [bne_iff_ne, ne_eq] at this
            simp only [beq_iff_eq]
            exact this
          rw [this]
          rfl
      · intro c hc
        rw [hru]
      · intro hnone
        exact absurd hrid (hnone conns rfl r hrconns)
      · intro c hc
        rw [hru] at hc
        simp only [Prod.snd] at hc
        have hc' : r.close 1000 "normal closure" = c := by
          injection hc
        rw [← hc']
        unfold Connection.close
        by_cases hrc : r.closed
        · rw [if_pos hrc]
          exact hrc
        · rw [if_neg hrc]
      · intro hopen c hc
        rw [hru] at hc
        simp only [Prod.snd] at hc
        have hc' : r.close 1000 "normal closure" = c := by
          injection hc
        have hrc : r.closed = false :=
          hopen (gid, conns) (alookup_mem hl) r hrconns
        rw [← hc']
        unfold Connection.close
        rw [hrc]
        simp

/-- Witness for C7: unregistering the only connection of `mHeartbeat` twice —
the second call is a no-op and the count went down exactly once. -/
theorem spec_c7_unregister_idempotent_witness :
    ((mHeartbeat.unregister "gw-1" 0).1).unregister "gw-1" 0
      = ((mHeartbeat.unregister "gw-1" 0).1, none) ∧
    (mHeartbeat.unregister "gw-1" 0).1.connectionCount
      = mHeartbeat.connectionCount - 1 := by
  have h := spec_c7_unregister_idempotent mHeartbeat "gw-1" 0 (by decide)
  exact ⟨h.1, h.2.1 (cExpired.close 1000 "normal closure") (by decide)⟩

/-- C6: at a supervision tick, a live connection whose `lastHeartbeat` age
exceeds the configured `heartbeatTimeout` is unregistered — removed from the
registry — and its transport's `Close` is invoked exactly once; any later
`Close` call on the already-closed connection (read-loop unregister, shutdown)
does not invoke the transport close again. -/
theorem spec_c6_heartbeat_timeout (m : Manager) (hwf : m.WF) (gid : String)
    (conns : List Connection) (c : Connection) (now : Int) (pingOk : Bool)
    (hl : alookup gid m.conns = some conns) (hmem : c ∈ conns)
    (hgid : c.gatewayID = gid) (hopen : c.closed = false)
    (hfresh : c.transport.closes = [])
    (hexp : now - c.lastHeartbeat > m.heartbeatTimeout) :
    (∀ conns', alookup gid ((m.monitorHeartbeatTick gid c.connectionID now pingOk).1).conns
        = some conns' → ∀ d ∈ conns', d.connectionID ≠ c.connectionID) ∧
    (m.monitorHeartbeatTick gid c.connectionID now pingOk).2
        = some (c.close 1000 "normal closure") ∧
    (c.close 1000 "normal closure").transport.closes
        = [((1000 : Int), "normal closure")] ∧
    (∀ code reason, ((c.close 1000 "normal closure").close code reason).transport.closes
        = [((1000 : Int), "normal closure")]) := by
  have hnd : (conns.map (·.connectionID)).Nodup :=
    nodup_entry_of_lookup hwf.ids_nodup hl
  have hfil : conns.filter (fun d => d.connectionID == c.connectionID) = [c] :=
    filter_eq_single_of_nodup hnd hmem
  have hgetlast : (conns.filter (fun d => d.connectionID == c.connectionID)).getLast?
      = some c := by
    rw [hfil]
    rfl
  have htick : m.monitorHeartbeatTick gid c.connectionID now pingOk
      = m.unregister gid c.connectionID := by
    unfold Manager.monitorHeartbeatTick
    rw [hl]
    dsimp only
    rw [hgetlast]
    dsimp only
    rw [hopen]
    simp only [Bool.false_eq_true, if_false]
    rw [if_pos hexp, hgid]
  have hru := unregister_of_match hl hgetlast
  have hcc : c.close 1000 "normal closure"
      = { c with closed := true,
                 transport := { c.transport with
                                closes := c.transport.closes ++ [(1000, "normal closure")] } } := by
    unfold Connection.close
    rw [hopen]
    simp
  refine ⟨?_, ?_, ?_, ?_⟩
  · rw [htick, hru]
    by_cases hemp : (conns.filter (fun d => d.connectionID != c.connectionID)).isEmpty
    · rw [if_pos hemp]
      intro conns' h'
      rw [alookup_adelete_self hwf.keys_nodup] at h'
      cases h'
    · rw [if_neg hemp]
      intro conns' h'
      rw [alookup_astore_self] at h'
      cases h'
      intro d hd
      have := (List.mem_filter.1 hd).2
      simpa using this
  · rw [htick, hru]
  · rw [hcc, hfresh]
    rfl
  · intro code reason
    rw [hcc]
    unfold Connection.close
    rw [if_pos rfl]
    rw [hfresh]
    rfl

/-- Witness for C6: the single connection of `mHeartbeat` (last heartbeat 0,
timeout 30) at tick instant 100. -/
theorem spec_c6_heartbeat_timeout_witness :
    (mHeartbeat.monitorHeartbeatTick "gw-1" cExpired.connectionID 100 true).2
      = some (cExpired.close 1000 "normal closure") ∧
    (cExpired.close 1000 "normal closure").transport.closes
      = [((1000 : Int), "normal closure")] := by
  have h := spec_c6_heartbeat_timeout mHeartbeat
    ⟨by decide, by decide, by decide, by decide, by decide⟩ "gw-1" [cExpired] cExpired
    100 true (by decide) (by decide) (by decide) (by decide) (by decide) (by decide)
  exact ⟨h.2.1, h.2.2.1⟩

end AgentManager
